import Mathlib

/-!
Verification of `password_mngr.py` (class `PasswordManager`): a local
password store that encrypts per-service passwords with a Fernet key
loaded from (or generated into) a key file, and persists them in a
SQLite table with a UNIQUE constraint on the service column.

The embedding below is shallow: the SQLite table becomes a list of
(service, token) rows in insertion order, the filesystem at the key
path becomes an `Option (List Nat)`, the interactive `getpass` prompts
become an input stream `Nat -> String`, and randomness (key generation,
the per-encryption nonce) becomes explicit parameters.  The Fernet
library itself is not part of the repository sources, so its
encrypt/decrypt/key-validation behaviour is modelled from the spec
(authenticated symmetric encryption with a fresh random nonce embedded
in the token; 32-byte key material; decryption fails when the
authentication tag does not verify).
-/

/-- Errors raised by the modelled Fernet decrypt (spec taxonomy
`DecryptionFailed` / `MalformedCiphertext`). -/
inductive CryptoError where
  | DecryptionFailed
  | MalformedCiphertext
deriving DecidableEq

/-- Errors of the key-loading stage (spec taxonomy `CorruptKeyFile`). -/
inductive KeyError where
  | CorruptKeyFile
deriving DecidableEq

/-- Modelled from the spec: a Fernet token carries the fresh random
nonce/IV drawn at encryption time, the encrypted body, and an
authentication tag over the body. -/
structure FernetToken where
  nonce : Nat
  body : List Nat
  tag : Nat
deriving DecidableEq

/-- Modelled from the spec: one byte of the keystream derived from the
key bytes and the per-call nonce (the concrete mixing function stands
in for the cipher; only determinism in (key, nonce, index) matters). -/
def keyByte (key : List Nat) (nonce i : Nat) : Nat :=
  (key.foldl (fun a b => a * 31 + b) 7 + nonce * 131 + i * 17) % 256

/-- Modelled from the spec: keystream of length `n` for (key, nonce). -/
def keystream (key : List Nat) (nonce : Nat) (n : Nat) : List Nat :=
  (List.range n).map (keyByte key nonce)

/-- Modelled from the spec: the authentication tag over nonce and body,
deterministic in (key, nonce, body). -/
def macTag (key : List Nat) (nonce : Nat) (body : List Nat) : Nat :=
  (key.foldl (fun a b => a * 131 + b) 3 + nonce * 7 +
    body.foldl (fun a b => a * 257 + b) 11) % 65536

/-- UTF plaintext bytes of a password string (`password.encode()`),
modelled at the level of Unicode code points. -/
def encodeStr (s : String) : List Nat :=
  s.data.map Char.toNat

/-- Embeds `encrypt_password` (src line 39-41): encrypt a password with the
manager key; the fresh random nonce drawn inside `fernet.encrypt` is
the explicit `nonce` argument. -/
def encrypt_password (key : List Nat) (nonce : Nat) (password : String) : FernetToken :=
  let pt := encodeStr password
  let body := List.zipWith Nat.xor pt (keystream key nonce pt.length)
  { nonce := nonce, body := body, tag := macTag key nonce body }

/-- Embeds `decrypt_password` (src line 43-45): decrypt a stored token,
failing (the library raises `InvalidToken`) when the authentication tag
does not verify. -/
def decrypt_password (key : List Nat) (tok : FernetToken) : Except CryptoError String :=
  if macTag key tok.nonce tok.body = tok.tag then
    let pt := List.zipWith Nat.xor tok.body (keystream key tok.nonce tok.body.length)
    Except.ok (String.mk (pt.map Char.ofNat))
  else
    Except.error CryptoError.DecryptionFailed

/-- XOR with the same list twice restores the original (lengths equal). -/
theorem zipWith_xor_invol : (l ks : List Nat) → ks.length = l.length →
    List.zipWith Nat.xor (List.zipWith Nat.xor l ks) ks = l
  | [], [], _ => rfl
  | [], _ :: _, h => by simp at h
  | _ :: _, [], h => by simp at h
  | a :: l, k :: ks, h => by
    simp only [List.zipWith]
    refine congrArg₂ List.cons ?_ (zipWith_xor_invol l ks (by simpa using h))
    exact Nat.xor_cancel_right k a

/-- Shared helper: decrypting an encrypted password returns it. -/
theorem decrypt_encrypt_aux (key : List Nat) (nonce : Nat) (p : String) :
    decrypt_password key (encrypt_password key nonce p) = Except.ok p := by
  unfold decrypt_password encrypt_password
  simp only [if_pos rfl]
  have hlen : (keystream key nonce (encodeStr p).length).length = (encodeStr p).length := by
    simp [keystream]
  have hbody : (List.zipWith Nat.xor (encodeStr p) (keystream key nonce (encodeStr p).length)).length
      = (encodeStr p).length := by
    simp [List.length_zipWith, hlen]
  rw [hbody, zipWith_xor_invol _ _ (by simp [hlen, List.length_zipWith, hbody])]
  simp only [encodeStr, List.map_map]
  have hmap : ∀ l : List Char, List.map (Char.ofNat ∘ Char.toNat) l = l := by
    intro l
    induction l with
    | nil => rfl
    | cons c cs ih => simp [Function.comp, Char.ofNat_toNat, ih]
  rw [hmap]
  simp

/-- Modelled from the spec: `Fernet.generate_key()`, a cryptographically
random 32-byte key, abstracted as a function of an entropy seed. -/
def generateKey (seed : Nat) : List Nat :=
  (List.range 32).map (fun i => (seed / 256 ^ i) % 256)

/-- Modelled from the spec: the validation `Fernet(key)` performs on key
material — the key must be exactly the expected fixed size (32 bytes). -/
def fernetKeyValid (key : List Nat) : Bool :=
  key.length == 32

/-- Embeds `_initialize_encryption` (src line 28-37): the filesystem at the key
path is `Option (List Nat)` (`none` = no file).  If the file exists its
bytes are read back as the key; otherwise a fresh key is generated from
`entropy` and written.  Either way `Fernet(key)` validates the key
(`CorruptKeyFile` in the spec taxonomy).  Returns the key together with
the filesystem after the call. -/
def initializeEncryption (fs : Option (List Nat)) (entropy : Nat) :
    Except KeyError (List Nat × Option (List Nat)) :=
  match fs with
  | some key =>
      if fernetKeyValid key then Except.ok (key, some key)
      else Except.error KeyError.CorruptKeyFile
  | none =>
      let key := generateKey entropy
      if fernetKeyValid key then Except.ok (key, some key)
      else Except.error KeyError.CorruptKeyFile

/-- Does the password contain an uppercase letter (`re.search` with the
pattern A-Z, src line 54)? -/
def hasUpper (p : String) : Bool :=
  p.data.any (fun c => decide (Char.ofNat 65 ≤ c) && decide (c ≤ Char.ofNat 90))

/-- Does the password contain a lowercase letter (src line 57)? -/
def hasLower (p : String) : Bool :=
  p.data.any (fun c => decide (Char.ofNat 97 ≤ c) && decide (c ≤ Char.ofNat 122))

/-- Does the password contain a decimal digit (src line 60; the regex
digit class, restricted to ASCII digits)? -/
def hasDigit (p : String) : Bool :=
  p.data.any (fun c => decide (Char.ofNat 48 ≤ c) && decide (c ≤ Char.ofNat 57))

/-- The fixed punctuation set of the special-character check (src line
63); the double quote and both braces are written by code point. -/
def specialSet : List Char :=
  ['!', '@', '#', '$', '%', '^', '&', '*', '(', ')', ',', '.', '?',
    Char.ofNat 34, ':', Char.ofNat 123, Char.ofNat 125, '|', '<', '>']

/-- Does the password contain a character of `specialSet` (src line 63)? -/
def hasSpecial (p : String) : Bool :=
  p.data.any (fun c => specialSet.contains c)

/-- Embeds `validate_password` (src line 47-66): collect the violation messages
in the fixed source order and return `(ok, violations)`. -/
def validate_password (p : String) : Bool × List String :=
  let errors :=
    (if p.length < 8 then ["- At least 8 characters long"] else []) ++
    (if !hasUpper p then ["- At least one uppercase letter"] else []) ++
    (if !hasLower p then ["- At least one lowercase letter"] else []) ++
    (if !hasDigit p then ["- At least one number"] else []) ++
    (if !hasSpecial p then ["- At least one special character "] else [])
  (errors.length == 0, errors)

/-- The passwords table: rows `(service, stored token)` in insertion
order.  The TEXT serialisation of the token in the real column is a
bijection and is elided. -/
abbrev DB := List (String × FernetToken)

/-- The error SQLite raises on a UNIQUE-constraint violation. -/
inductive SqlError where
  | IntegrityError
deriving DecidableEq

/-- Embeds `SELECT service, password FROM passwords WHERE service = ?`
followed by `fetchone` (src line 119-120): the first row whose service column
matches exactly. -/
def lookupService (db : DB) (service : String) : Option FernetToken :=
  (db.find? (fun r => r.1 == service)).map Prod.snd

/-- Does a row for `service` exist (the UNIQUE constraint's test)? -/
def serviceExists (db : DB) (service : String) : Bool :=
  db.any (fun r => r.1 == service)

/-- Embeds `INSERT INTO passwords (service, password) VALUES (?, ?)`: the
UNIQUE constraint on `service` applies (src line 20-25, 105); the insert fails
with `IntegrityError` when a row for the service exists, and otherwise
appends the new row. -/
def insertRecord (db : DB) (service : String) (tok : FernetToken) :
    Except SqlError DB :=
  if serviceExists db service then Except.error SqlError.IntegrityError
  else Except.ok (db ++ [(service, tok)])

/-- Outcome of one `add_password` call (src line 68-114): the row was
saved; the service already existed (`DuplicateService` in the spec
taxonomy, printed as "already exists"); validation failed three times;
or confirmation failed three times. -/
inductive AddResult where
  | saved
  | duplicateService
  | validationFailed
  | confirmFailed
deriving DecidableEq

/-- The confirmation loop of `add_password` (src line 88-101): up to
`attemptsLeft` reads of `Confirm password`; returns the input cursor
after the matching confirmation, or `none` when every attempt
mismatched. -/
def confirmLoop (inputs : Nat → String) (password : String) :
    Nat → Nat → Option Nat
  | _, 0 => none
  | idx, n + 1 =>
      if inputs idx == password then some (idx + 1)
      else confirmLoop inputs password (idx + 1) n

/-- The outer attempt loop of `add_password` (src line 72-114): read a
password, validate it (retrying while attempts remain), confirm it,
then encrypt and insert, mapping `IntegrityError` to the duplicate
outcome without mutating the table.  Returns the outcome and the table
after the call. -/
def addPasswordLoop (key : List Nat) (nonce : Nat) (inputs : Nat → String)
    (db : DB) (service : String) : Nat → Nat → AddResult × DB
  | _, 0 => (AddResult.validationFailed, db)
  | idx, n + 1 =>
      let password := inputs idx
      if (validate_password password).1 then
        match confirmLoop inputs password (idx + 1) 3 with
        | none => (AddResult.confirmFailed, db)
        | some _ =>
            match insertRecord db service (encrypt_password key nonce password) with
            | Except.ok db2 => (AddResult.saved, db2)
            | Except.error _ => (AddResult.duplicateService, db)
      else
        addPasswordLoop key nonce inputs db service (idx + 1) n

/-- Embeds `add_password` (src line 68-114) with `max_attempts = 3`, starting
at the head of the input stream. -/
def add_password (key : List Nat) (nonce : Nat) (inputs : Nat → String)
    (db : DB) (service : String) : AddResult × DB :=
  addPasswordLoop key nonce inputs db service 0 3

/-- Embeds `get_password` (src line 116-133): look the service up; decrypt on a
hit; the block is wrapped in a bare `except Exception: return None`, so
a lookup miss and a decryption failure both yield `None`. -/
def get_password (key : List Nat) (db : DB) (service : String) : Option String :=
  match lookupService db service with
  | some tok =>
      match decrypt_password key tok with
      | Except.ok pt => some pt
      | Except.error _ => none
  | none => none

/-- Embeds `close` (src line 135-137): `conn.close()` releases the connection
handle and leaves the stored rows unchanged. -/
def close (db : DB) : DB :=
  db

/-- A fixed demonstration key (the generated key for entropy 0). -/
def demoKey : List Nat := generateKey 0

/-- A token whose authentication tag is off by one, so that decryption
with `demoKey` fails. -/
def badTok : FernetToken :=
  { nonce := 0, body := [1], tag := macTag demoKey 0 [1] + 1 }

/-- A well-formed stored token for the password string used in the
retrieval examples. -/
def goodTok : FernetToken := encrypt_password demoKey 0 "Secret1!"

/-- The five violation messages in the fixed order the source emits. -/
def fullViolationOrder : List String :=
  ["- At least 8 characters long", "- At least one uppercase letter",
    "- At least one lowercase letter", "- At least one number",
    "- At least one special character "]

/-- A successful lookup implies the UNIQUE-constraint test fires. -/
theorem serviceExists_of_lookup {db : DB} {s : String} {t : FernetToken}
    (h : lookupService db s = some t) : serviceExists db s = true := by
  induction db with
  | nil => simp [lookupService] at h
  | cons r rest ih =>
      by_cases hr : (r.1 == s) = true
      · simp [serviceExists, hr]
      · rw [Bool.not_eq_true] at hr
        have h2 : lookupService rest s = some t := by
          simp only [lookupService, List.find?] at h ⊢
          simpa [hr] using h
        have h3 := ih h2
        simp only [serviceExists, List.any_cons, hr, Bool.false_or]
        exact h3

/-- When the service already has a row, no branch of the attempt loop
mutates the table. -/
theorem addPasswordLoop_no_mutation {key : List Nat} {nonce : Nat}
    {inputs : Nat → String} {db : DB} {service : String}
    (h : serviceExists db service = true) :
    ∀ idx n, (addPasswordLoop key nonce inputs db service idx n).2 = db := by
  intro idx n
  induction n generalizing idx with
  | zero => rfl
  | succ n ih =>
      simp only [addPasswordLoop]
      split
      · split
        · rfl
        · simp only [insertRecord, h, if_pos]
      · exact ih (idx + 1)

/-- A failed UNIQUE-constraint test means the service heads no row. -/
theorem not_mem_of_not_exists {db : DB} {s : String}
    (h : serviceExists db s = false) : s ∉ db.map Prod.fst := by
  unfold serviceExists at h
  rw [List.any_eq_false] at h
  intro hmem
  rcases List.mem_map.mp hmem with ⟨r, hr, hfst⟩
  exact h r hr (by simp [hfst])

/-- C1 — Round-trip correctness: for every plaintext password string and
a fixed key (and whatever nonce the library draws), decrypting the
result of `encrypt_password` returns exactly the original password. -/
theorem password_roundtrip (key : List Nat) (nonce : Nat) (p : String) :
    decrypt_password key (encrypt_password key nonce p) = Except.ok p :=
  decrypt_encrypt_aux key nonce p

/-- C3 — Key-load idempotence: starting from no key file, the first
`_initialize_encryption` call returns a generated key and writes it;
a second call against the resulting filesystem (with any entropy)
returns byte-identical key material and leaves the file unchanged; the
file exists and is non-empty after the first call. -/
theorem initialize_encryption_idempotent (e1 e2 : Nat) :
    ∃ key, initializeEncryption none e1 = Except.ok (key, some key) ∧
      initializeEncryption (some key) e2 = Except.ok (key, some key) ∧
      key.length = 32 ∧ key ≠ [] := by
  refine ⟨generateKey e1, ?_, ?_, ?_, ?_⟩
  · simp [initializeEncryption, fernetKeyValid, generateKey]
  · simp [initializeEncryption, fernetKeyValid, generateKey]
  · simp [generateKey]
  · intro hnil
    have : (generateKey e1).length = 0 := by rw [hnil]; rfl
    simp [generateKey] at this

/-- C4 — Nonce freshness: two calls to `encrypt_password` with distinct
randomness draws yield different ciphertext tokens, and both decrypt
back to the original plaintext. -/
theorem encrypt_nonce_freshness (key : List Nat) (n1 n2 : Nat) (p : String)
    (h : n1 ≠ n2) :
    encrypt_password key n1 p ≠ encrypt_password key n2 p ∧
    decrypt_password key (encrypt_password key n1 p) = Except.ok p ∧
    decrypt_password key (encrypt_password key n2 p) = Except.ok p := by
  refine ⟨?_, decrypt_encrypt_aux key n1 p, decrypt_encrypt_aux key n2 p⟩
  intro heq
  exact h (congrArg FernetToken.nonce heq)

/-- Witness for C4 at key `[]`, nonces 0 and 1, plaintext "pw". -/
theorem encrypt_nonce_freshness_witness :
    encrypt_password [] 0 "pw" ≠ encrypt_password [] 1 "pw" ∧
    decrypt_password [] (encrypt_password [] 0 "pw") = Except.ok "pw" ∧
    decrypt_password [] (encrypt_password [] 1 "pw") = Except.ok "pw" :=
  encrypt_nonce_freshness [] 0 1 "pw" (by decide)

/-- C6 — Corrupt key file detection: when a file exists at the key path
whose byte length is not the expected 32-byte key size, initialization
fails with `CorruptKeyFile`. -/
theorem corrupt_key_file_detected (key : List Nat) (e : Nat)
    (h : key.length ≠ 32) :
    initializeEncryption (some key) e = Except.error KeyError.CorruptKeyFile := by
  simp [initializeEncryption, fernetKeyValid, h]

/-- Witness for C6 at the one-byte key file `[0]`. -/
theorem corrupt_key_file_detected_witness :
    initializeEncryption (some [0]) 0 = Except.error KeyError.CorruptKeyFile :=
  corrupt_key_file_detected [0] 0 (by decide)

/-- C2 — Duplicate-put atomicity: when a row for the service already
exists, `add_password` performs no mutation whatever the interactive
inputs are — the table is exactly as before, the stored token is
untouched, retrieval is unchanged — and when the entered password is
valid and confirmed on the first try the outcome is the duplicate
failure (printed as "already exists"). -/
theorem add_password_duplicate_no_mutation (key : List Nat) (nonce : Nat)
    (inputs : Nat → String) (db : DB) (service : String) (tokX : FernetToken)
    (hmem : lookupService db service = some tokX) :
    (add_password key nonce inputs db service).2 = db ∧
    lookupService (add_password key nonce inputs db service).2 service = some tokX ∧
    get_password key (add_password key nonce inputs db service).2 service =
      get_password key db service ∧
    ((validate_password (inputs 0)).1 = true → inputs 1 = inputs 0 →
      (add_password key nonce inputs db service).1 = AddResult.duplicateService) := by
  have hex := serviceExists_of_lookup hmem
  have hnm : (add_password key nonce inputs db service).2 = db :=
    addPasswordLoop_no_mutation hex 0 3
  refine ⟨hnm, by rw [hnm]; exact hmem, by rw [hnm], fun hv hc => ?_⟩
  simp only [add_password]
  show (addPasswordLoop key nonce inputs db service 0 (2 + 1)).1 = _
  simp only [addPasswordLoop, hv, if_true]
  show (match confirmLoop inputs (inputs 0) (0 + 1) (2 + 1) with
    | none => (AddResult.confirmFailed, db)
    | some _ =>
        match insertRecord db service (encrypt_password key nonce (inputs 0)) with
        | Except.ok db2 => (AddResult.saved, db2)
        | Except.error _ => (AddResult.duplicateService, db)).1 = _
  simp only [confirmLoop, hc, beq_self_eq_true, if_true]
  simp only [insertRecord, hex, if_true]

/-- Witness for C2: a second put of "svc" on a store already holding
"svc" leaves the store unchanged and reports the duplicate. -/
theorem add_password_duplicate_no_mutation_witness :
    (add_password demoKey 5 (fun _ => "MyPass123!") [("svc", goodTok)] "svc").2 =
      [("svc", goodTok)] ∧
    (add_password demoKey 5 (fun _ => "MyPass123!") [("svc", goodTok)] "svc").1 =
      AddResult.duplicateService := by
  have h := add_password_duplicate_no_mutation demoKey 5 (fun _ => "MyPass123!")
    [("svc", goodTok)] "svc" goodTok rfl
  exact ⟨h.1, h.2.2.2 rfl rfl⟩

/-- C5 counterexample — the claim that decryption failures inside
`get_password` are propagated unchanged is false: for a stored token
whose tag does not verify, `decrypt_password` fails, yet `get_password`
returns `none`, exactly the result of an absent service. -/
theorem get_password_hides_decryption_failure :
    decrypt_password demoKey badTok = Except.error CryptoError.DecryptionFailed ∧
    lookupService [("svc", badTok)] "svc" = some badTok ∧
    get_password demoKey [("svc", badTok)] "svc" = none ∧
    get_password demoKey [] "svc" = none :=
  ⟨rfl, rfl, rfl, rfl⟩

/-- C5 (amended) — the bare `except Exception` in `get_password`
catches decryption failures and turns them into `None`: whenever the
lookup finds a token whose decryption fails, the call returns `none`
rather than surfacing the error. -/
theorem get_password_swallows_errors (key : List Nat) (db : DB) (s : String)
    (tok : FernetToken) (er : CryptoError)
    (h1 : lookupService db s = some tok)
    (h2 : decrypt_password key tok = Except.error er) :
    get_password key db s = none := by
  simp [get_password, h1, h2]

/-- Witness for the amended C5 at the tampered token. -/
theorem get_password_swallows_errors_witness :
    get_password demoKey [("svc", badTok)] "svc" = none :=
  get_password_swallows_errors demoKey [("svc", badTok)] "svc" badTok
    CryptoError.DecryptionFailed rfl rfl

/-- C7 counterexample — `add_password` performs no service-name
validation: called with the empty service name on an empty store (and a
valid, confirmed password), it reports success and inserts a row keyed
by the empty string instead of failing without mutation. -/
theorem add_password_accepts_empty_service :
    (add_password demoKey 5 (fun _ => "MyPass123!") [] "").1 = AddResult.saved ∧
    lookupService (add_password demoKey 5 (fun _ => "MyPass123!") [] "").2 "" =
      some (encrypt_password demoKey 5 "MyPass123!") ∧
    (add_password demoKey 5 (fun _ => "MyPass123!") [] "").2.length = 1 :=
  ⟨rfl, rfl, rfl⟩

/-- C7 (amended) — `add_password` never validates the service name:
with a valid password confirmed on the first try and no existing row
for the empty name, the call succeeds and appends a row whose service
is the empty string. -/
theorem add_password_no_service_validation (key : List Nat) (nonce : Nat)
    (inputs : Nat → String) (db : DB)
    (hv : (validate_password (inputs 0)).1 = true)
    (hc : inputs 1 = inputs 0)
    (hfree : serviceExists db "" = false) :
    add_password key nonce inputs db "" =
      (AddResult.saved, db ++ [("", encrypt_password key nonce (inputs 0))]) := by
  simp only [add_password]
  show addPasswordLoop key nonce inputs db "" 0 (2 + 1) = _
  simp only [addPasswordLoop, hv, if_true]
  show (match confirmLoop inputs (inputs 0) (0 + 1) (2 + 1) with
    | none => (AddResult.confirmFailed, db)
    | some _ =>
        match insertRecord db "" (encrypt_password key nonce (inputs 0)) with
        | Except.ok db2 => (AddResult.saved, db2)
        | Except.error _ => (AddResult.duplicateService, db)) = _
  simp only [confirmLoop, hc, beq_self_eq_true, if_true]
  simp [insertRecord, hfree]

/-- Witness for the amended C7 on the empty store. -/
theorem add_password_no_service_validation_witness :
    add_password demoKey 5 (fun _ => "MyPass123!") [] "" =
      (AddResult.saved, [("", encrypt_password demoKey 5 "MyPass123!")]) :=
  add_password_no_service_validation demoKey 5 (fun _ => "MyPass123!") [] rfl rfl rfl

/-- The uniqueness invariant: at most one row per service name
(case-sensitive, exact), phrased as no duplicates among the service
column of the table. -/
def serviceUnique (db : DB) : Prop :=
  (db.map Prod.fst).Nodup

/-- The attempt loop preserves the uniqueness invariant: the only
mutation is the guarded insert, which appends a service that had no
row. -/
theorem addPasswordLoop_preserves_unique {key : List Nat} {nonce : Nat}
    {inputs : Nat → String} {db : DB} {service : String}
    (h : serviceUnique db) :
    ∀ idx n, serviceUnique (addPasswordLoop key nonce inputs db service idx n).2 := by
  intro idx n
  induction n generalizing idx with
  | zero => exact h
  | succ n ih =>
      simp only [addPasswordLoop]
      split
      · split
        · exact h
        · cases hins : insertRecord db service (encrypt_password key nonce (inputs idx)) with
          | error e => exact h
          | ok db2 =>
              show serviceUnique db2
              unfold insertRecord at hins
              by_cases hex : serviceExists db service = true
              · rw [if_pos hex] at hins; cases hins
              · rw [Bool.not_eq_true] at hex
                rw [if_neg (by simp [hex])] at hins
                cases hins
                show ((db ++ [(service, encrypt_password key nonce (inputs idx))]).map Prod.fst).Nodup
                simp only [List.map_append, List.map_cons, List.map_nil]
                rw [List.nodup_append]
                refine ⟨h, List.nodup_singleton _, fun a ha hb => ?_⟩
                rw [List.mem_singleton] at hb
                subst hb
                exact not_mem_of_not_exists hex ha
      · exact ih (idx + 1)

/-- C8 — Uniqueness invariant: the empty table (what `create_table`
creates) satisfies it, `add_password` preserves it for every key,
input stream and service, and `close` preserves it; `get_password` is
read-only by its type (it returns only an `Option String`), so every
operation preserves the invariant on every reachable state. -/
theorem operations_preserve_uniqueness (key : List Nat) (nonce : Nat)
    (inputs : Nat → String) (db : DB) (service : String)
    (h : serviceUnique db) :
    serviceUnique ([] : DB) ∧
    serviceUnique (add_password key nonce inputs db service).2 ∧
    serviceUnique (close (add_password key nonce inputs db service).2) ∧
    close db = db :=
  ⟨List.nodup_nil, addPasswordLoop_preserves_unique h 0 3,
    addPasswordLoop_preserves_unique h 0 3, rfl⟩

/-- Witness for C8: inserting "b" into the singleton store for "a"
keeps the service column duplicate-free. -/
theorem operations_preserve_uniqueness_witness :
    serviceUnique (add_password demoKey 5 (fun _ => "MyPass123!")
      [("a", goodTok)] "b").2 :=
  (operations_preserve_uniqueness demoKey 5 (fun _ => "MyPass123!")
    [("a", goodTok)] "b" (by simp [serviceUnique])).2.1

/-- C9 — Password-policy validator: the violation list is always a
sublist of the five messages in their fixed order (length, uppercase,
lowercase, digit, special), and the six reference inputs produce
exactly the specified verdicts. -/
theorem validate_password_policy :
    (∀ p : String, List.Sublist (validate_password p).2 fullViolationOrder) ∧
    validate_password "Ab1!" = (false, ["- At least 8 characters long"]) ∧
    validate_password "mypass123!" = (false, ["- At least one uppercase letter"]) ∧
    validate_password "MYPASS123!" = (false, ["- At least one lowercase letter"]) ∧
    validate_password "MyPassword!" = (false, ["- At least one number"]) ∧
    validate_password "MyPassword123" = (false, ["- At least one special character "]) ∧
    validate_password "MyPass123!" = (true, []) := by
  refine ⟨fun p => ?_, rfl, rfl, rfl, rfl, rfl, rfl⟩
  simp only [validate_password]
  show List.Sublist _ ((((["- At least 8 characters long"] ++
    ["- At least one uppercase letter"]) ++ ["- At least one lowercase letter"]) ++
    ["- At least one number"]) ++ ["- At least one special character "])
  refine List.Sublist.append (List.Sublist.append (List.Sublist.append
    (List.Sublist.append ?_ ?_) ?_) ?_) ?_ <;>
      split <;> first | exact List.Sublist.refl _ | exact List.nil_sublist _

/-- C10 — `get_password` is total and never propagates a failure: it
returns the decrypted plaintext when the row exists and decryption
succeeds, and `none` both when no row exists and when decryption fails,
so `none` does not distinguish an absent service from a failed
decryption. -/
theorem get_password_total (key : List Nat) (db : DB) (s : String) :
    (lookupService db s = none → get_password key db s = none) ∧
    (∀ tok pt, lookupService db s = some tok →
      decrypt_password key tok = Except.ok pt →
      get_password key db s = some pt) ∧
    (∀ tok er, lookupService db s = some tok →
      decrypt_password key tok = Except.error er →
      get_password key db s = none) := by
  refine ⟨fun h => ?_, fun tok pt h1 h2 => ?_, fun tok er h1 h2 => ?_⟩ <;>
    simp [get_password, *]

/-- Witness for C10 on an empty store, a decryptable row and a
tampered row. -/
theorem get_password_total_witness :
    get_password demoKey [] "gmail.com" = none ∧
    get_password demoKey [("gmail.com", goodTok)] "gmail.com" = some "Secret1!" ∧
    get_password demoKey [("gmail.com", badTok)] "gmail.com" = none :=
  ⟨(get_password_total demoKey [] "gmail.com").1 rfl,
    (get_password_total demoKey [("gmail.com", goodTok)] "gmail.com").2.1
      goodTok "Secret1!" rfl rfl,
    (get_password_total demoKey [("gmail.com", badTok)] "gmail.com").2.2
      badTok CryptoError.DecryptionFailed rfl rfl⟩
